import Mathlib

/-!
Verification of the Gocomet gaming-leaderboard backend
(`src/backend/src/services/leaderboard.service.js` and its collaborators)
against its natural-language specification.

The durable store (PostgreSQL tables `users`, `game_sessions`, `leaderboard`)
is shallowly embedded as explicit Lean state; each SQL statement issued by the
service is embedded as a pure function on that state.  Machine integers are
modelled as `Nat` (scores are validated to `0 ≤ score ≤ 1_000_000` by
`validator.js`, so no overflow or negativity arises at the embedded level).
-/

namespace Gocomet

/-- `AVG(score)::int` in PostgreSQL: the exact rational mean `s / n` cast from
`numeric` to `int`, which rounds half away from zero; for non-negative
operands this is `⌊s/n + 1/2⌋ = (2*s + n) / (2*n)` in integer division. -/
def roundDiv (s n : Nat) : Nat := (2 * s + n) / (2 * n)

/-- `COALESCE(AVG(score)::int, 0)` over a bag of scores: `0` when there are no
rows, otherwise the rounded mean. -/
def avgList (l : List Nat) : Nat := if l.length = 0 then 0 else roundDiv l.sum l.length

/-- A row of `game_sessions` (a ScoreEvent): serial id, owning user, score,
categorical tag, timestamp omitted (never read by the engine). -/
structure SessionRow where
  id : Nat
  user_id : Nat
  score : Nat
  game_mode : String
deriving Repr, DecidableEq

/-- `score > 5000 ? 'solo' : 'team'` in `submitScore`. -/
def gameMode (score : Nat) : String := if 5000 < score then "solo" else "team"

/-- A row of `leaderboard` (an AggregateEntry). -/
structure LeaderboardRow where
  user_id : Nat
  total_score : Nat
  rank : Nat
deriving Repr, DecidableEq

/-- The durable store: `users` (ids only — the engine reads nothing else),
`game_sessions`, `leaderboard`, plus the `game_sessions.id` sequence. -/
structure DBState where
  users : List Nat
  game_sessions : List SessionRow
  leaderboard : List LeaderboardRow
  nextSessionId : Nat
deriving Repr, DecidableEq

/-- A fresh store holding only user rows (no sessions, no aggregates). -/
def initState (users : List Nat) : DBState :=
  { users := users, game_sessions := [], leaderboard := [], nextSessionId := 1 }

/-- Scores of all of a user's sessions:
`SELECT score FROM game_sessions WHERE user_id = $1`. -/
def userScores (st : DBState) (uid : Nat) : List Nat :=
  (st.game_sessions.filter (fun gs => decide (gs.user_id = uid))).map (·.score)

/-- `COALESCE(AVG(score)::int, 0) FROM game_sessions WHERE user_id = $1`. -/
def avgScore (st : DBState) (uid : Nat) : Nat := avgList (userScores st uid)

/-- Step 1 of `submitScore`: `INSERT INTO game_sessions ... RETURNING ...`. -/
def insertSession (st : DBState) (uid score : Nat) : DBState × SessionRow :=
  let row : SessionRow := ⟨st.nextSessionId, uid, score, gameMode score⟩
  ({ st with game_sessions := st.game_sessions ++ [row],
             nextSessionId := st.nextSessionId + 1 }, row)

/-- Step 2 of `submitScore`: `INSERT INTO leaderboard ... ON CONFLICT
(user_id) DO UPDATE SET total_score = (SELECT COALESCE(AVG(score)::int,0)
FROM game_sessions WHERE user_id = $1) RETURNING user_id, total_score`.
Both arms recompute the aggregate from *all* of the user's session rows as
visible inside the transaction (i.e. including the row just inserted). -/
def upsertLeaderboard (st : DBState) (uid : Nat) : DBState × Nat :=
  let total := avgScore st uid
  if st.leaderboard.any (fun r => r.user_id == uid) then
    let newLb := st.leaderboard.map fun r =>
      if r.user_id = uid then { r with total_score := total } else r
    ({ st with leaderboard := newLb }, total)
  else
    ({ st with leaderboard := st.leaderboard ++ [⟨uid, total, 0⟩] }, total)

/-- Which store statement inside the `submitScore` transaction fails
(injected infrastructure failure); `none` on the happy path. -/
inductive StoreFail where
  | insertSession
  | upsertAggregate
deriving Repr, DecidableEq

/-- The typed failures `submitScore` can surface (via the error middleware:
FK violation `23503` → referenced user does not exist; store failure →
service unavailable). -/
inductive SubmitError where
  | unknownPlayer
  | storeUnavailable
deriving Repr, DecidableEq

/-- The success payload of `submitScore`. -/
structure SubmitResult where
  session_id : Nat
  user_id : Nat
  score : Nat
  total_score : Nat
  game_mode : String
deriving Repr, DecidableEq

/-- The `submitScore` transaction: `BEGIN`; insert the session row (an insert
for a user id absent from `users` raises a foreign-key violation); upsert the
aggregate; `COMMIT`.  Any failure before commit triggers `ROLLBACK`, so the
returned store is the *initial* store and the caller sees a typed error. -/
def submitScoreTx (fail : Option StoreFail) (st : DBState) (uid score : Nat) :
    DBState × Except SubmitError SubmitResult :=
  if fail = some StoreFail.insertSession then (st, Except.error SubmitError.storeUnavailable)
  else if uid ∈ st.users then
    let w1 := insertSession st uid score
    if fail = some StoreFail.upsertAggregate then (st, Except.error SubmitError.storeUnavailable)
    else
      let w2 := upsertLeaderboard w1.1 uid
      (w2.1, Except.ok { session_id := w1.2.id, user_id := uid, score := score,
                         total_score := w2.2, game_mode := w1.2.game_mode })
  else (st, Except.error SubmitError.unknownPlayer)

/-- The store after one submit attempt (rolled back on failure). -/
def runStep (st : DBState) (op : Nat × Nat) : DBState :=
  (submitScoreTx none st op.1 op.2).1

/-- The store after a sequence of submit attempts. -/
def runSubmits (st : DBState) (ops : List (Nat × Nat)) : DBState :=
  ops.foldl runStep st

/-- Aggregate invariant: every leaderboard row belongs to a user with at
least one session, and its `total_score` is the rounded mean over *all* of
that user's session scores. -/
def AggOK (st : DBState) : Prop :=
  ∀ row ∈ st.leaderboard,
    userScores st row.user_id ≠ [] ∧
    row.total_score = roundDiv (userScores st row.user_id).sum (userScores st row.user_id).length

lemma userScores_insertSession (st : DBState) (uid score u : Nat) :
    userScores (insertSession st uid score).1 u =
      if uid = u then userScores st u ++ [score] else userScores st u := by
  simp only [userScores, insertSession, List.filter_append, List.map_append]
  by_cases h : uid = u
  · subst h
    simp
  · simp [h]

lemma game_sessions_upsert (st : DBState) (uid : Nat) :
    (upsertLeaderboard st uid).1.game_sessions = st.game_sessions := by
  unfold upsertLeaderboard
  by_cases h : st.leaderboard.any (fun r => r.user_id == uid)
  · simp [h]
  · simp [h]

lemma userScores_upsert (st : DBState) (uid u : Nat) :
    userScores (upsertLeaderboard st uid).1 u = userScores st u := by
  unfold userScores
  rw [game_sessions_upsert]

lemma avgList_ne_nil (l : List Nat) (h : l ≠ []) :
    avgList l = roundDiv l.sum l.length := by
  unfold avgList
  rw [if_neg]
  simpa using h

lemma runStep_eq (st : DBState) (uid score : Nat) :
    runStep st (uid, score) =
      if uid ∈ st.users then (upsertLeaderboard (insertSession st uid score).1 uid).1
      else st := by
  unfold runStep submitScoreTx
  by_cases hu : uid ∈ st.users <;> simp [hu]

/-- `AggOK` is preserved by a successful submit transaction. -/
lemma aggOK_submit_success (st : DBState) (uid score : Nat) (h : AggOK st) :
    AggOK ((upsertLeaderboard (insertSession st uid score).1 uid).1) := by
  set st1 := (insertSession st uid score).1 with hst1
  have hlb1 : st1.leaderboard = st.leaderboard := rfl
  have hus1 : ∀ u, userScores st1 u =
      if uid = u then userScores st u ++ [score] else userScores st u :=
    fun u => userScores_insertSession st uid score u
  have hne_uid : userScores st1 uid ≠ [] := by
    rw [hus1 uid, if_pos rfl]; simp
  intro row hrow
  rw [userScores_upsert]
  unfold upsertLeaderboard at hrow
  by_cases hany : st1.leaderboard.any (fun r => r.user_id == uid)
  · simp only [hany, if_true, List.mem_map] at hrow
    obtain ⟨r, hr, hgr⟩ := hrow
    by_cases hru : r.user_id = uid
    · have hrid : row.user_id = uid := by rw [← hgr, if_pos hru]; exact hru
      have hrtot : row.total_score = avgScore st1 uid := by rw [← hgr, if_pos hru]
      rw [hrid, hrtot]
      exact ⟨hne_uid, avgList_ne_nil _ hne_uid⟩
    · rw [if_neg hru] at hgr
      subst hgr
      have hr' : r ∈ st.leaderboard := hlb1 ▸ hr
      obtain ⟨hne, htot⟩ := h r hr'
      have heq : userScores st1 r.user_id = userScores st r.user_id := by
        rw [hus1 r.user_id, if_neg (fun he => hru he.symm)]
      rw [heq]
      exact ⟨hne, htot⟩
  · simp only [hany, if_false] at hrow
    rcases List.mem_append.mp hrow with hr | hnew'
    on_goal 2 => have hnew := List.mem_singleton.mp hnew'
    · have hany' : ∀ x ∈ st1.leaderboard, ¬((x.user_id == uid) = true) := by
        intro x hx hbe
        exact hany (List.any_eq_true.mpr ⟨x, hx, hbe⟩)
      have hrowne : row.user_id ≠ uid := fun he => hany' row hr (beq_iff_eq.mpr he)
      have hr' : row ∈ st.leaderboard := hlb1 ▸ hr
      obtain ⟨hne, htot⟩ := h row hr'
      have heq : userScores st1 row.user_id = userScores st row.user_id := by
        rw [hus1 row.user_id, if_neg (fun he => hrowne he.symm)]
      rw [heq]
      exact ⟨hne, htot⟩
    · have hrid : row.user_id = uid := by rw [hnew]
      have hrtot : row.total_score = avgScore st1 uid := by rw [hnew]
      rw [hrid, hrtot]
      exact ⟨hne_uid, avgList_ne_nil _ hne_uid⟩

/-- `AggOK` is preserved by one submit attempt (failed attempts roll back). -/
lemma aggOK_runStep (st : DBState) (op : Nat × Nat) (h : AggOK st) :
    AggOK (runStep st op) := by
  obtain ⟨uid, score⟩ := op
  rw [runStep_eq]
  by_cases hu : uid ∈ st.users
  · rw [if_pos hu]
    exact aggOK_submit_success st uid score h
  · rw [if_neg hu]
    exact h

lemma aggOK_runSubmits (st : DBState) (ops : List (Nat × Nat)) (h : AggOK st) :
    AggOK (runSubmits st ops) := by
  induction ops generalizing st with
  | nil => exact h
  | cons op rest ih =>
    show AggOK (runSubmits (runStep st op) rest)
    exact ih _ (aggOK_runStep st op h)

lemma aggOK_init (users : List Nat) : AggOK (initState users) := by
  intro row hrow
  simp [initState] at hrow

/-- C1: for every player `P`, after any sequence of submit operations from a
fresh store, the stored `leaderboard.total_score` for `P` equals the rounded
arithmetic mean of the scores of all of `P`'s `game_sessions` rows (a full
recomputation over all events). -/
theorem submit_aggregate_full_mean (users : List Nat) (ops : List (Nat × Nat))
    (row : LeaderboardRow) (h : row ∈ (runSubmits (initState users) ops).leaderboard) :
    userScores (runSubmits (initState users) ops) row.user_id ≠ [] ∧
    row.total_score =
      roundDiv (userScores (runSubmits (initState users) ops) row.user_id).sum
        (userScores (runSubmits (initState users) ops) row.user_id).length :=
  aggOK_runSubmits (initState users) ops (aggOK_init users) row h

/-- Witness for C1: two submits of 5 and 3 for player 1 leave total 4. -/
theorem submit_aggregate_full_mean_witness :
    userScores (runSubmits (initState [1]) [(1, 5), (1, 3)]) 1 ≠ [] ∧
    (⟨1, 4, 0⟩ : LeaderboardRow).total_score =
      roundDiv (userScores (runSubmits (initState [1]) [(1, 5), (1, 3)]) 1).sum
        (userScores (runSubmits (initState [1]) [(1, 5), (1, 3)]) 1).length :=
  submit_aggregate_full_mean [1] [(1, 5), (1, 3)] ⟨1, 4, 0⟩ (by decide)

/-- C2: if any step of the submit transaction fails before commit (including
the upsert failing after the session insert, and including an insert for a
user id absent from `users`), the whole transaction is rolled back — neither
the session row nor any leaderboard mutation is visible — and the caller
receives a typed error (`unknownPlayer` for the missing-player case). -/
theorem submit_rollback_atomic :
    (∀ (fail : Option StoreFail) (st : DBState) (uid score : Nat) (e : SubmitError),
        (submitScoreTx fail st uid score).2 = Except.error e →
          (submitScoreTx fail st uid score).1 = st ∧
          (submitScoreTx fail st uid score).1.game_sessions = st.game_sessions ∧
          (submitScoreTx fail st uid score).1.leaderboard = st.leaderboard) ∧
    (∀ (st : DBState) (uid score : Nat), uid ∉ st.users →
        (submitScoreTx none st uid score).2 = Except.error SubmitError.unknownPlayer) := by
  constructor
  · intro fail st uid score e h
    unfold submitScoreTx at h ⊢
    split_ifs at h ⊢ <;> simp_all
  · intro st uid score hu
    unfold submitScoreTx
    simp [hu]

/-- Witness for C2: the upsert failing after the insert rolls everything
back, and a submit for absent player 2 fails with `unknownPlayer`. -/
theorem submit_rollback_atomic_witness :
    (submitScoreTx (some StoreFail.upsertAggregate) (initState [1]) 1 5).1 = initState [1] ∧
    (submitScoreTx none (initState [1]) 2 5).2 = Except.error SubmitError.unknownPlayer :=
  ⟨(submit_rollback_atomic.1 (some StoreFail.upsertAggregate) (initState [1]) 1 5
      SubmitError.storeUnavailable rfl).1,
   submit_rollback_atomic.2 (initState [1]) 2 5 (by decide)⟩

/-! ### Dense rank (`DENSE_RANK() OVER (ORDER BY total_score DESC)`) -/

/-- The distinct values of `vals` arranged descending — the order in which the
window function walks the peer groups of `ORDER BY total_score DESC`. -/
def sortedDistinctDesc (vals : List Nat) : List Nat :=
  List.insertionSort (fun a b => b ≤ a) vals.dedup

/-- 0-based position of the first occurrence of `v` in a list. -/
def posIn (v : Nat) : List Nat → Nat
  | [] => 0
  | w :: t => if w = v then 0 else posIn v t + 1

/-- `DENSE_RANK() OVER (ORDER BY total_score DESC)` evaluated at value `v`:
the 1-based position of `v`'s peer group in the descending sequence of
distinct values. -/
def denseRank (vals : List Nat) (v : Nat) : Nat := posIn v (sortedDistinctDesc vals) + 1

/-- The number of distinct values of `vals` that are strictly greater than
`v` (the specification's characterisation of dense rank minus one). -/
def distinctGreater (vals : List Nat) (v : Nat) : Nat :=
  (vals.dedup.filter (fun w => decide (v < w))).length

lemma posIn_sorted (v : Nat) :
    ∀ l : List Nat, l.Pairwise (fun a b => b ≤ a) → v ∈ l →
      posIn v l = (l.filter (fun w => decide (v < w))).length := by
  intro l
  induction l with
  | nil => intro _ hv; exact absurd hv (List.not_mem_nil v)
  | cons w t ih =>
    intro hp hv
    obtain ⟨hwt, hpt⟩ := List.pairwise_cons.mp hp
    by_cases hw : w = v
    · subst hw
      have hfilt : (w :: t).filter (fun x => decide (w < x)) = [] := by
        rw [List.filter_eq_nil_iff]
        intro x hx
        rcases List.mem_cons.mp hx with rfl | hx'
        · simp
        · simp only [decide_eq_true_eq]
          exact not_lt.mpr (hwt x hx')
      rw [hfilt]
      simp [posIn]
    · have hvt : v ∈ t := by
        rcases List.mem_cons.mp hv with rfl | h
        · exact absurd rfl hw
        · exact h
      have hvw : v < w := lt_of_le_of_ne (hwt v hvt) (fun he => hw he.symm)
      have hcons : (w :: t).filter (fun x => decide (v < x)) =
          w :: t.filter (fun x => decide (v < x)) := by
        simp [List.filter_cons, hvw]
      rw [hcons]
      simp only [posIn, if_neg hw, List.length_cons]
      rw [ih hpt hvt]

lemma sortedDistinctDesc_sorted (vals : List Nat) :
    (sortedDistinctDesc vals).Pairwise (fun a b => b ≤ a) := by
  haveI : IsTotal Nat (fun a b : Nat => b ≤ a) := ⟨fun a b => le_total b a⟩
  haveI : IsTrans Nat (fun a b : Nat => b ≤ a) := ⟨fun a b c hab hbc => le_trans hbc hab⟩
  exact List.sorted_insertionSort _ _

lemma sortedDistinctDesc_perm (vals : List Nat) :
    List.Perm (sortedDistinctDesc vals) vals.dedup :=
  List.perm_insertionSort _ _

/-- The operational dense rank (sorted position) equals one plus the number
of distinct strictly greater values. -/
lemma denseRank_eq_distinctGreater (vals : List Nat) (v : Nat) (hv : v ∈ vals) :
    denseRank vals v = distinctGreater vals v + 1 := by
  unfold denseRank distinctGreater
  congr 1
  have hvmem : v ∈ sortedDistinctDesc vals :=
    (sortedDistinctDesc_perm vals).mem_iff.mpr (List.mem_dedup.mpr hv)
  rw [posIn_sorted v _ (sortedDistinctDesc_sorted vals) hvmem]
  exact ((sortedDistinctDesc_perm vals).filter _).length_eq

/-! ### `recalculateRanks` -/

/-- The freshly computed dense rank over the current leaderboard values:
`SELECT user_id, DENSE_RANK() OVER (ORDER BY total_score DESC) FROM leaderboard`. -/
def newRanks (st : DBState) : Nat → Nat :=
  denseRank (st.leaderboard.map (·.total_score))

/-- Effect of the batch `UPDATE` on one row: rows whose stored rank already
equals the fresh rank are outside the `WHERE l.rank != sub.new_rank` clause
and stay untouched; the others get the fresh rank. -/
def recalcRow (nr : Nat → Nat) (r : LeaderboardRow) : LeaderboardRow :=
  if r.rank = nr r.total_score then r else { r with rank := nr r.total_score }

/-- `recalculateRanks`: one batch `UPDATE ... WHERE l.rank != sub.new_rank`;
returns the updated store and `rowCount` (the number of rows the `WHERE`
clause selected). -/
def recalculateRanks (st : DBState) : DBState × Nat :=
  ({ st with leaderboard := st.leaderboard.map (recalcRow (newRanks st)) },
   (st.leaderboard.filter (fun r => decide (¬ r.rank = newRanks st r.total_score))).length)

lemma recalcRow_total (nr : Nat → Nat) (r : LeaderboardRow) :
    (recalcRow nr r).total_score = r.total_score := by
  unfold recalcRow
  split <;> rfl

lemma recalcRow_rank (nr : Nat → Nat) (r : LeaderboardRow) :
    (recalcRow nr r).rank = nr r.total_score := by
  unfold recalcRow
  split
  · next h => exact h
  · rfl

lemma map_total_recalc (nr : Nat → Nat) (lb : List LeaderboardRow) :
    (lb.map (recalcRow nr)).map (·.total_score) = lb.map (·.total_score) := by
  induction lb with
  | nil => rfl
  | cons r t ih => simp [recalcRow_total, ih]

/-- C4: `recalculateRanks` is idempotent — the second of two back-to-back
calls (no intervening submits) selects zero rows and returns 0. -/
theorem recalculateRanks_idempotent (st : DBState) :
    (recalculateRanks (recalculateRanks st).1).2 = 0 := by
  have hlb : (recalculateRanks st).1.leaderboard =
      st.leaderboard.map (recalcRow (newRanks st)) := rfl
  have hnr : newRanks (recalculateRanks st).1 = newRanks st := by
    unfold newRanks
    rw [hlb, map_total_recalc]
  show ((recalculateRanks st).1.leaderboard.filter
      (fun r => decide (¬ r.rank = newRanks (recalculateRanks st).1 r.total_score))).length = 0
  rw [hnr, hlb, List.length_eq_zero, List.filter_eq_nil_iff]
  intro a ha
  obtain ⟨r, _, rfl⟩ := List.mem_map.mp ha
  simp [recalcRow_rank, recalcRow_total]

/-! ### `getPlayerRank` (database path, i.e. cache miss) -/

/-- The typed not-found failure of `getPlayerRank` (HTTP 404: "Player with
user_id ... not found on leaderboard"). -/
inductive RankError where
  | notFoundOnLeaderboard (uid : Nat)
deriving Repr, DecidableEq

/-- One output row of the rank query. -/
structure RankInfo where
  user_id : Nat
  total_score : Nat
  rank : Nat
  total_players : Nat
deriving Repr, DecidableEq

/-- `FROM leaderboard l JOIN users u ON l.user_id = u.id` (the engine reads
no `users` column other than the join key, so the join is a filter). -/
def joinedRows (st : DBState) : List LeaderboardRow :=
  st.leaderboard.filter (fun r => decide (r.user_id ∈ st.users))

/-- The inner subquery: every joined row decorated with its dense rank over
`total_score DESC` and `COUNT(*) OVER ()`. -/
def rankedRows (st : DBState) : List RankInfo :=
  (joinedRows st).map fun r =>
    { user_id := r.user_id, total_score := r.total_score,
      rank := denseRank ((joinedRows st).map (·.total_score)) r.total_score,
      total_players := (joinedRows st).length }

/-- `getPlayerRank` on a cache miss: rank all joined rows, then filter to the
requested user; zero rows is the not-found failure. -/
def getPlayerRankDB (st : DBState) (uid : Nat) : Except RankError RankInfo :=
  match (rankedRows st).filter (fun ri => decide (ri.user_id = uid)) with
  | [] => Except.error (RankError.notFoundOnLeaderboard uid)
  | ri :: _ => Except.ok ri

lemma filter_map_comm {α β : Type} (f : α → β) (p : β → Bool) (l : List α) :
    (l.map f).filter p = (l.filter (fun a => p (f a))).map f := by
  induction l with
  | nil => rfl
  | cons a t ih => by_cases h : p (f a) <;> simp [h, ih]

lemma joinedRows_eq (st : DBState) (hfk : ∀ r ∈ st.leaderboard, r.user_id ∈ st.users) :
    joinedRows st = st.leaderboard := by
  unfold joinedRows
  rw [List.filter_eq_self]
  intro r hr
  exact decide_eq_true (hfk r hr)

lemma rankedRows_filter (st : DBState) (uid : Nat)
    (hfk : ∀ r ∈ st.leaderboard, r.user_id ∈ st.users) :
    (rankedRows st).filter (fun ri => decide (ri.user_id = uid)) =
      (st.leaderboard.filter (fun r => decide (r.user_id = uid))).map fun r =>
        { user_id := r.user_id, total_score := r.total_score,
          rank := denseRank (st.leaderboard.map (·.total_score)) r.total_score,
          total_players := st.leaderboard.length } := by
  unfold rankedRows
  rw [joinedRows_eq st hfk, filter_map_comm]

/-- C5: for a player present on the leaderboard, `getPlayerRank` on a cache
miss returns the dense rank of that player over all leaderboard rows ordered
by `total_score` descending — one plus the number of distinct strictly
greater values — together with `total_players` equal to the row count. -/
theorem getPlayerRank_dense (st : DBState) (uid : Nat) (row : LeaderboardRow)
    (rest : List LeaderboardRow)
    (hfk : ∀ r ∈ st.leaderboard, r.user_id ∈ st.users)
    (hfilt : st.leaderboard.filter (fun r => decide (r.user_id = uid)) = row :: rest) :
    getPlayerRankDB st uid = Except.ok
      { user_id := uid, total_score := row.total_score,
        rank := distinctGreater (st.leaderboard.map (·.total_score)) row.total_score + 1,
        total_players := st.leaderboard.length } := by
  have hrow_mem : row ∈ st.leaderboard.filter (fun r => decide (r.user_id = uid)) := by
    rw [hfilt]; exact List.mem_cons_self row rest
  have hrow_lb : row ∈ st.leaderboard := List.mem_of_mem_filter hrow_mem
  have hrow_uid : row.user_id = uid :=
    of_decide_eq_true (List.mem_filter.mp hrow_mem).2
  have hval_mem : row.total_score ∈ st.leaderboard.map (·.total_score) :=
    List.mem_map_of_mem _ hrow_lb
  unfold getPlayerRankDB
  rw [rankedRows_filter st uid hfk, hfilt]
  rw [List.map_cons]
  show Except.ok
      ({ user_id := row.user_id, total_score := row.total_score,
         rank := denseRank (st.leaderboard.map (·.total_score)) row.total_score,
         total_players := st.leaderboard.length } : RankInfo) = _
  rw [denseRank_eq_distinctGreater _ _ hval_mem, hrow_uid]

/-- Witness for C5: player 1 with total 10 among totals {10, 20} gets dense
rank 2 and total_players 2. -/
theorem getPlayerRank_dense_witness :
    getPlayerRankDB ⟨[1, 2], [], [⟨1, 10, 0⟩, ⟨2, 20, 0⟩], 1⟩ 1 =
      Except.ok { user_id := 1, total_score := 10, rank := 2, total_players := 2 } :=
  getPlayerRank_dense ⟨[1, 2], [], [⟨1, 10, 0⟩, ⟨2, 20, 0⟩], 1⟩ 1 ⟨1, 10, 0⟩ []
    (by decide) (by decide)

/-- C6: under the schema's foreign-key invariant, `getPlayerRank` fails with
the not-found condition if and only if the player has no leaderboard row —
a condition independent of whether the player exists in `users` (a user with
no aggregate row gets this failure, distinct from an unknown-player error). -/
theorem getPlayerRank_notFound_iff (st : DBState) (uid : Nat)
    (hfk : ∀ r ∈ st.leaderboard, r.user_id ∈ st.users) :
    getPlayerRankDB st uid = Except.error (RankError.notFoundOnLeaderboard uid) ↔
      ∀ r ∈ st.leaderboard, r.user_id ≠ uid := by
  unfold getPlayerRankDB
  rw [rankedRows_filter st uid hfk]
  cases hfilt : st.leaderboard.filter (fun r => decide (r.user_id = uid)) with
  | nil =>
    simp only [List.map_nil]
    constructor
    · intro _ r hr he
      have : r ∈ st.leaderboard.filter (fun r => decide (r.user_id = uid)) :=
        List.mem_filter.mpr ⟨hr, decide_eq_true he⟩
      rw [hfilt] at this
      exact absurd this (List.not_mem_nil r)
    · intro _
      trivial
  | cons row rest =>
    simp only [List.map_cons]
    constructor
    · intro h
      exact absurd h (by simp)
    · intro h
      have hrow_mem : row ∈ st.leaderboard.filter (fun r => decide (r.user_id = uid)) := by
        rw [hfilt]; exact List.mem_cons_self row rest
      have : row.user_id = uid := of_decide_eq_true (List.mem_filter.mp hrow_mem).2
      exact absurd this (h row (List.mem_of_mem_filter hrow_mem))

/-- Witness for C6: user 2 exists but has no leaderboard row, so the lookup
fails with the not-found condition. -/
theorem getPlayerRank_notFound_witness :
    getPlayerRankDB ⟨[1, 2], [], [⟨1, 10, 0⟩], 1⟩ 2 =
      Except.error (RankError.notFoundOnLeaderboard 2) :=
  (getPlayerRank_notFound_iff ⟨[1, 2], [], [⟨1, 10, 0⟩], 1⟩ 2 (by decide)).mpr (by decide)

/-! ### Post-commit effects: cache invalidation and WebSocket publish -/

/-- `CACHE_KEYS.TOP_LEADERBOARD`. -/
def TOP_LEADERBOARD : String := "leaderboard:top"

/-- `CACHE_KEYS.PLAYER_RANK(userId)`. -/
def PLAYER_RANK (userId : Nat) : String := "leaderboard:rank:" ++ toString userId

/-- The payload `submitScore` hands to `publishUpdate`. -/
structure UpdateData where
  userId : Nat
  newScore : Nat
  totalScore : Nat
  sessionId : Nat
deriving Repr, DecidableEq

/-- A message on the `leaderboard:updates` channel. -/
structure WsMessage where
  type : String
  data : UpdateData
  timestamp : Nat
deriving Repr, DecidableEq

/-- `publishUpdate` (websocket.js): wraps the payload as
`{ type: 'leaderboard_update', data, timestamp }`. -/
def publishUpdate (d : UpdateData) (ts : Nat) : WsMessage :=
  { type := "leaderboard_update", data := d, timestamp := ts }

/-- `redis.del key` on the association-list cache model. -/
def cacheDel (c : List (String × String)) (k : String) : List (String × String) :=
  c.filter (fun kv => decide (¬ kv.1 = k))

/-- `_invalidateCache`: delete the top key then the player's rank key inside
one try/catch — a failing `del` aborts the remaining deletes but the error is
swallowed (`delFails` says which keys' deletes throw). -/
def invalidateCache (delFails : String → Bool) (c : List (String × String)) (uid : Nat) :
    List (String × String) :=
  if delFails TOP_LEADERBOARD then c
  else
    let c1 := cacheDel c TOP_LEADERBOARD
    if delFails (PLAYER_RANK uid) then c1
    else cacheDel c1 (PLAYER_RANK uid)

/-- Durable store plus cache contents plus the stream of published messages. -/
structure SysState where
  db : DBState
  cache : List (String × String)
  published : List WsMessage
deriving Repr, DecidableEq

/-- `submitScore` end to end: the transaction; then — only after a successful
commit — best-effort cache invalidation and a fire-and-forget broadcast.
`busFails` models the broadcast promise rejecting (caught and only logged). -/
def submitScoreFull (fail : Option StoreFail) (delFails : String → Bool) (busFails : Bool)
    (sys : SysState) (uid score ts : Nat) : SysState × Except SubmitError SubmitResult :=
  match submitScoreTx fail sys.db uid score with
  | (db', Except.error e) => ({ sys with db := db' }, Except.error e)
  | (db', Except.ok r) =>
    let cache' := invalidateCache delFails sys.cache uid
    let msg := publishUpdate { userId := uid, newScore := score,
                               totalScore := r.total_score, sessionId := r.session_id } ts
    ({ db := db', cache := cache',
       published := if busFails then sys.published else sys.published ++ [msg] },
     Except.ok r)

lemma upsertLeaderboard_total (st : DBState) (uid : Nat) :
    (upsertLeaderboard st uid).2 = avgScore st uid := by
  unfold upsertLeaderboard
  split <;> rfl

lemma avgScore_upsert (st : DBState) (uid u : Nat) :
    avgScore (upsertLeaderboard st uid).1 u = avgScore st u := by
  unfold avgScore
  rw [userScores_upsert]

lemma submitScoreTx_ok_mem (st : DBState) (uid score : Nat) (r : SubmitResult)
    (h : (submitScoreTx none st uid score).2 = Except.ok r) : uid ∈ st.users := by
  by_contra hu
  unfold submitScoreTx at h
  simp [hu] at h

lemma submitScoreTx_ok_shape (st : DBState) (uid score : Nat) (hu : uid ∈ st.users) :
    submitScoreTx none st uid score =
      ((upsertLeaderboard (insertSession st uid score).1 uid).1,
       Except.ok { session_id := st.nextSessionId, user_id := uid, score := score,
                   total_score := (upsertLeaderboard (insertSession st uid score).1 uid).2,
                   game_mode := gameMode score }) := by
  unfold submitScoreTx
  simp [hu]
  exact ⟨rfl, rfl⟩

lemma submitScoreFull_of_tx_ok (fail : Option StoreFail) (delFails : String → Bool)
    (busFails : Bool) (sys : SysState) (uid score ts : Nat) (r : SubmitResult)
    (h : (submitScoreTx fail sys.db uid score).2 = Except.ok r) :
    submitScoreFull fail delFails busFails sys uid score ts =
      ({ db := (submitScoreTx fail sys.db uid score).1,
         cache := invalidateCache delFails sys.cache uid,
         published := if busFails then sys.published
           else sys.published ++ [publishUpdate
             { userId := uid, newScore := score,
               totalScore := r.total_score, sessionId := r.session_id } ts] },
       Except.ok r) := by
  have h1 : submitScoreTx fail sys.db uid score =
      ((submitScoreTx fail sys.db uid score).1, (submitScoreTx fail sys.db uid score).2) :=
    Prod.mk.eta.symm
  rw [h] at h1
  unfold submitScoreFull
  rw [h1]

/-- C7: once the transaction commits, submit reports success no matter which
cache deletes throw or whether the broadcast fails — the result value and the
durable store are identical to the failure-free run, so no cache or bus error
can fail the submission. -/
theorem submit_success_despite_cache_bus (sys : SysState) (uid score ts : Nat)
    (r : SubmitResult) (h : (submitScoreTx none sys.db uid score).2 = Except.ok r)
    (delFails : String → Bool) (busFails : Bool) :
    (submitScoreFull none delFails busFails sys uid score ts).2 = Except.ok r ∧
    (submitScoreFull none delFails busFails sys uid score ts).1.db =
      (submitScoreFull none (fun _ => false) false sys uid score ts).1.db := by
  rw [submitScoreFull_of_tx_ok none delFails busFails sys uid score ts r h,
    submitScoreFull_of_tx_ok none (fun _ => false) false sys uid score ts r h]
  exact ⟨rfl, rfl⟩

/-- Witness for C7: with every cache delete throwing and the broadcast
failing, a committed submit still returns success. -/
theorem submit_success_despite_cache_bus_witness :
    (submitScoreFull none (fun _ => true) true ⟨initState [1], [], []⟩ 1 5 0).2 =
      Except.ok ⟨1, 1, 5, 5, "team"⟩ ∧
    (submitScoreFull none (fun _ => true) true ⟨initState [1], [], []⟩ 1 5 0).1.db =
      (submitScoreFull none (fun _ => false) false ⟨initState [1], [], []⟩ 1 5 0).1.db :=
  submit_success_despite_cache_bus ⟨initState [1], [], []⟩ 1 5 0 ⟨1, 1, 5, 5, "team"⟩ rfl
    (fun _ => true) true

/-- Counterexample for C9: the message published by a successful submit has
type `"leaderboard_update"` with the payload nested under `data`, not the
claimed top-level `{ type: "score_update", ... }` schema. -/
theorem publish_schema_counterexample :
    (submitScoreFull none (fun _ => false) false ⟨initState [1], [], []⟩ 1 5 7).1.published =
      [{ type := "leaderboard_update", data := ⟨1, 5, 5, 1⟩, timestamp := 7 }] ∧
    ¬ ("leaderboard_update" = "score_update") := by
  constructor
  · rfl
  · decide

/-- C9 (amended): every successful submit publishes exactly one message,
`{ type: 'leaderboard_update', data: { userId, newScore, totalScore,
sessionId }, timestamp }`, whose payload carries the player, the submitted
score, the new aggregate value and the new event's identifier. -/
theorem publish_schema (sys : SysState) (uid score ts : Nat) (r : SubmitResult)
    (delFails : String → Bool)
    (h : (submitScoreTx none sys.db uid score).2 = Except.ok r) :
    (submitScoreFull none delFails false sys uid score ts).1.published =
      sys.published ++ [{ type := "leaderboard_update",
                          data := { userId := uid, newScore := score,
                                    totalScore := r.total_score, sessionId := r.session_id },
                          timestamp := ts }] ∧
    r.total_score = avgScore (submitScoreFull none delFails false sys uid score ts).1.db uid ∧
    r.session_id = sys.db.nextSessionId := by
  have hu : uid ∈ sys.db.users := submitScoreTx_ok_mem sys.db uid score r h
  have hshape := submitScoreTx_ok_shape sys.db uid score hu
  have hr : r = { session_id := sys.db.nextSessionId, user_id := uid, score := score,
                  total_score := (upsertLeaderboard (insertSession sys.db uid score).1 uid).2,
                  game_mode := gameMode score } := by
    rw [hshape] at h
    exact (Except.ok.inj h).symm
  rw [submitScoreFull_of_tx_ok none delFails false sys uid score ts r h]
  refine ⟨rfl, ?_, ?_⟩
  · rw [hshape, hr]
    show (upsertLeaderboard (insertSession sys.db uid score).1 uid).2 =
      avgScore (upsertLeaderboard (insertSession sys.db uid score).1 uid).1 uid
    rw [upsertLeaderboard_total, avgScore_upsert]
  · rw [hr]

/-- Witness for C9 (amended): the single message published by a concrete
submit, with its aggregate and event identifier. -/
theorem publish_schema_witness :
    (submitScoreFull none (fun _ => false) false ⟨initState [1], [], []⟩ 1 5 7).1.published =
      [{ type := "leaderboard_update",
         data := { userId := 1, newScore := 5, totalScore := 5, sessionId := 1 },
         timestamp := 7 }] ∧
    (5 : Nat) = avgScore (submitScoreFull none (fun _ => false) false
      ⟨initState [1], [], []⟩ 1 5 7).1.db 1 ∧
    (1 : Nat) = (initState [1]).nextSessionId :=
  publish_schema ⟨initState [1], [], []⟩ 1 5 7 ⟨1, 1, 5, 5, "team"⟩ (fun _ => false) rfl

/-! ### `getTopPlayers` (database path)

The query is `SELECT ... FROM leaderboard l JOIN users u ... ORDER BY
l.total_score DESC LIMIT 10`.  It names no secondary sort key, so SQL leaves
the relative order of rows with equal `total_score` unspecified: the result
is *any* descending-by-score arrangement of the joined rows, cut to 10.  We
embed the statement as the relation between a store and its possible
outputs. -/

/-- Rows arranged consistently with `ORDER BY total_score DESC`. -/
def SortedDescBy (l : List LeaderboardRow) : Prop :=
  l.Pairwise (fun a b => b.total_score ≤ a.total_score)

instance (l : List LeaderboardRow) : Decidable (SortedDescBy l) :=
  inferInstanceAs
    (Decidable (l.Pairwise (fun a b : LeaderboardRow => b.total_score ≤ a.total_score)))

/-- `out` is a possible result set of the top-10 query against `st`. -/
def validTopOutput (st : DBState) (out : List LeaderboardRow) : Prop :=
  ∃ l : List LeaderboardRow,
    List.Perm l (joinedRows st) ∧ SortedDescBy l ∧ out = l.take 10

/-- Counterexample for C8: with two players tied at 5, both orders are valid
outputs of the query on the same store state, so the output is not
deterministic and no player-id tie-break is enforced. -/
theorem getTop_tie_order_counterexample :
    validTopOutput ⟨[1, 2], [], [⟨1, 5, 0⟩, ⟨2, 5, 0⟩], 1⟩ [⟨1, 5, 0⟩, ⟨2, 5, 0⟩] ∧
    validTopOutput ⟨[1, 2], [], [⟨1, 5, 0⟩, ⟨2, 5, 0⟩], 1⟩ [⟨2, 5, 0⟩, ⟨1, 5, 0⟩] ∧
    ([⟨1, 5, 0⟩, ⟨2, 5, 0⟩] : List LeaderboardRow) ≠ [⟨2, 5, 0⟩, ⟨1, 5, 0⟩] := by
  refine ⟨⟨[⟨1, 5, 0⟩, ⟨2, 5, 0⟩], ?_, ?_, rfl⟩,
    ⟨[⟨2, 5, 0⟩, ⟨1, 5, 0⟩], ?_, ?_, rfl⟩, ?_⟩
  · decide
  · decide
  · decide
  · decide
  · decide

/-- C8 (amended): every output of the top-10 query is sorted by aggregate
value descending, has `min 10 (#rows)` entries, and every returned entry's
value is at least every omitted row's value; but the tie order among equal
values is unspecified by the query, so the output list is not unique. -/
theorem getTop_sorted (st : DBState) (out : List LeaderboardRow)
    (h : validTopOutput st out) :
    SortedDescBy out ∧
    out.length = min 10 (joinedRows st).length ∧
    ∃ rest : List LeaderboardRow,
      List.Perm (joinedRows st) (out ++ rest) ∧
      ∀ x ∈ out, ∀ y ∈ rest, y.total_score ≤ x.total_score := by
  obtain ⟨l, hperm, hsort, rfl⟩ := h
  refine ⟨List.Pairwise.sublist (List.take_sublist 10 l) hsort, ?_, l.drop 10, ?_, ?_⟩
  · rw [List.length_take, hperm.length_eq]
  · have : List.Perm l (l.take 10 ++ l.drop 10) := by
      rw [List.take_append_drop]
    exact hperm.symm.trans this
  · have hs : List.Pairwise (fun a b => b.total_score ≤ a.total_score)
        (l.take 10 ++ l.drop 10) := by
      rw [List.take_append_drop]
      exact hsort
    exact (List.pairwise_append.mp hs).2.2

/-- Witness for C8 (amended): the sortedness and coverage facts for one
valid output on a concrete tied store. -/
theorem getTop_sorted_witness :
    SortedDescBy [⟨1, 5, 0⟩, ⟨2, 5, 0⟩] ∧
    ([⟨1, 5, 0⟩, ⟨2, 5, 0⟩] : List LeaderboardRow).length =
      min 10 (joinedRows ⟨[1, 2], [], [⟨1, 5, 0⟩, ⟨2, 5, 0⟩], 1⟩).length ∧
    ∃ rest : List LeaderboardRow,
      List.Perm (joinedRows ⟨[1, 2], [], [⟨1, 5, 0⟩, ⟨2, 5, 0⟩], 1⟩)
        ([⟨1, 5, 0⟩, ⟨2, 5, 0⟩] ++ rest) ∧
      ∀ x ∈ ([⟨1, 5, 0⟩, ⟨2, 5, 0⟩] : List LeaderboardRow), ∀ y ∈ rest,
        y.total_score ≤ x.total_score :=
  getTop_sorted ⟨[1, 2], [], [⟨1, 5, 0⟩, ⟨2, 5, 0⟩], 1⟩ [⟨1, 5, 0⟩, ⟨2, 5, 0⟩]
    ⟨[⟨1, 5, 0⟩, ⟨2, 5, 0⟩], by decide, by decide, rfl⟩

/-! ### Concurrent same-player submits

`N` concurrent submit transactions for one player are modelled at store-
statement granularity: each transaction `i` executes its session insert
(first occurrence in the schedule) and then its aggregate upsert (second
occurrence); the store serialises the individual statements, and the upsert
recomputes the mean over *all* session rows present — exactly the
`ON CONFLICT` statement of `submitScore` restricted to one player. -/

/-- The single player's slice of the store during `n` in-flight submits. -/
structure ConcState (n : Nat) where
  inserted : Finset (Fin n)
  events : List Nat
  agg : Option Nat

/-- Initial state: the player has zero score events and no aggregate row. -/
def concInit (n : Nat) : ConcState n := ⟨∅, [], none⟩

/-- One serialised store statement of transaction `i`. -/
def concStep {n : Nat} (s : Fin n → Nat) (st : ConcState n) (i : Fin n) : ConcState n :=
  if i ∈ st.inserted then { st with agg := some (avgList st.events) }
  else { st with inserted := insert i st.inserted, events := st.events ++ [s i] }

/-- Run a full interleaving. -/
def concRun {n : Nat} (s : Fin n → Nat) (sched : List (Fin n)) : ConcState n :=
  sched.foldl (concStep s) (concInit n)

/-- A schedule is an interleaving of the `n` transactions: each contributes
exactly its two statements. -/
def ValidSchedule (n : Nat) (sched : List (Fin n)) : Prop :=
  ∀ i : Fin n, sched.count i = 2

/-- The events multiset is always the image of the inserted transactions. -/
def EventsInv {n : Nat} (s : Fin n → Nat) (st : ConcState n) : Prop :=
  (st.events : Multiset Nat) = st.inserted.val.map s

instance (n : Nat) (sched : List (Fin n)) : Decidable (ValidSchedule n sched) :=
  inferInstanceAs (Decidable (∀ i : Fin n, sched.count i = 2))

lemma concStep_agg_of_mem {n : Nat} (s : Fin n → Nat) (st : ConcState n) (i : Fin n)
    (h : i ∈ st.inserted) : (concStep s st i).agg = some (avgList st.events) := by
  unfold concStep
  rw [if_pos h]

lemma concStep_inserted {n : Nat} (s : Fin n → Nat) (st : ConcState n) (i : Fin n) :
    (concStep s st i).inserted = insert i st.inserted := by
  unfold concStep
  split
  · next h => exact (Finset.insert_eq_self.mpr h).symm
  · rfl

lemma concFold_inserted {n : Nat} (s : Fin n → Nat) (l : List (Fin n)) :
    ∀ st : ConcState n, (l.foldl (concStep s) st).inserted = st.inserted ∪ l.toFinset := by
  induction l with
  | nil => intro st; simp
  | cons i t ih =>
    intro st
    rw [List.foldl_cons, ih, concStep_inserted, List.toFinset_cons,
      Finset.insert_union, Finset.union_insert]

lemma concStep_eventsInv {n : Nat} (s : Fin n → Nat) (st : ConcState n) (i : Fin n)
    (h : EventsInv s st) : EventsInv s (concStep s st i) := by
  unfold concStep
  split
  · exact h
  · next hni =>
    unfold EventsInv at h ⊢
    show ((st.events ++ [s i] : List Nat) : Multiset Nat) = (insert i st.inserted).val.map s
    have hpm : ((st.events ++ [s i] : List Nat) : Multiset Nat) =
        ((s i :: st.events : List Nat) : Multiset Nat) :=
      Multiset.coe_eq_coe.mpr (List.perm_append_singleton _ _)
    rw [hpm, ← Multiset.cons_coe, h, Finset.insert_val_of_not_mem hni, Multiset.map_cons]

lemma concFold_eventsInv {n : Nat} (s : Fin n → Nat) (l : List (Fin n)) :
    ∀ st : ConcState n, EventsInv s st → EventsInv s (l.foldl (concStep s) st) := by
  induction l with
  | nil => intro st h; exact h
  | cons i t ih =>
    intro st h
    rw [List.foldl_cons]
    exact ih _ (concStep_eventsInv s st i h)

/-- C3: every interleaving of `N` concurrent submits for a previously
event-free player, with the store serialising the individual insert and
conditional-upsert statements, ends with the aggregate equal to the rounded
mean of all `N` submitted scores — no update is lost. -/
theorem concurrent_same_player_submits (n : Nat) (s : Fin n → Nat)
    (sched : List (Fin n)) (hn : 0 < n) (hv : ValidSchedule n sched) :
    (concRun s sched).agg = some (roundDiv (∑ i, s i) n) := by
  rcases List.eq_nil_or_concat sched with hnil | ⟨L, j, hLj⟩
  · exfalso
    have h0 := hv ⟨0, hn⟩
    rw [hnil] at h0
    simp at h0
  · subst hLj
    have hmemL : ∀ i : Fin n, i ∈ L := by
      intro i
      have hc := hv i
      rw [List.concat_eq_append, List.count_append] at hc
      by_cases hij : i = j
      · subst hij
        have h1 : List.count i [i] = 1 := by simp
        rw [h1] at hc
        exact List.count_pos_iff.mp (by omega)
      · have h1 : List.count i [j] = 0 := by simp [hij]
        rw [h1] at hc
        exact List.count_pos_iff.mp (by omega)
    have hins : (L.foldl (concStep s) (concInit n)).inserted = Finset.univ := by
      rw [concFold_inserted]
      apply Finset.eq_univ_iff_forall.mpr
      intro i
      exact Finset.mem_union_right _ (List.mem_toFinset.mpr (hmemL i))
    have hinv : EventsInv s (L.foldl (concStep s) (concInit n)) :=
      concFold_eventsInv s L (concInit n) rfl
    rw [show concRun s (L.concat j) =
        concStep s (L.foldl (concStep s) (concInit n)) j from by
      rw [concRun, List.concat_eq_append, List.foldl_append, List.foldl_cons, List.foldl_nil]]
    have hj : j ∈ (L.foldl (concStep s) (concInit n)).inserted := by
      rw [hins]; exact Finset.mem_univ j
    rw [concStep_agg_of_mem s _ j hj]
    congr 1
    unfold EventsInv at hinv
    rw [hins] at hinv
    have hlen : (L.foldl (concStep s) (concInit n)).events.length = n := by
      have h1 := congrArg Multiset.card hinv
      rw [Multiset.coe_card, Multiset.card_map] at h1
      rw [h1]
      show Finset.univ.card = n
      simp
    have hsum : (L.foldl (concStep s) (concInit n)).events.sum = ∑ i, s i := by
      have h1 := congrArg Multiset.sum hinv
      rw [Multiset.sum_coe] at h1
      exact h1
    unfold avgList
    rw [hlen, hsum, if_neg (Nat.pos_iff_ne_zero.mp hn)]

/-- Witness for C3: two concurrent submits of 5 and 7 under the interleaving
insert₀, insert₁, upsert₁, upsert₀ end with aggregate `round(mean(5,7)) = 6`. -/
theorem concurrent_same_player_submits_witness :
    (concRun ![5, 7] [0, 1, 1, 0]).agg = some (roundDiv (∑ i, ![5, 7] i) 2) :=
  concurrent_same_player_submits 2 ![5, 7] [0, 1, 1, 0] (by decide) (by decide)

/-! ### The in-process fallback cache (`InMemoryCache`) -/

/-- A stored cache item: serialised value and optional expiry instant (ms). -/
structure MemEntry where
  value : String
  expiry : Option Nat
deriving Repr, DecidableEq

/-- The `InMemoryCache` keyed map (`this.store`); the deletion timers only
ever remove entries at or after their expiry, and `get` re-checks expiry
itself, so the map alone determines `get`'s observable result. -/
structure MemCache where
  store : List (String × MemEntry)
deriving Repr, DecidableEq

def emptyMemCache : MemCache := ⟨[]⟩

/-- `set(key, value, 'EX', t)`: a truthy ttl argument (nonzero) yields
`expiry = now + t*1000`; `Map.set` replaces any previous entry. -/
def MemCache.set (c : MemCache) (now : Nat) (key value : String) (ex : Option Nat) : MemCache :=
  let ttl : Option Nat :=
    match ex with
    | some t => if t = 0 then none else some (t * 1000)
    | none => none
  ⟨(key, ⟨value, ttl.map (fun ms => now + ms)⟩) ::
    c.store.filter (fun kv => decide (¬ kv.1 = key))⟩

/-- `get` treats an item as expired exactly when `Date.now() > item.expiry`. -/
def entryLive (now : Nat) (e : MemEntry) : Bool :=
  match e.expiry with
  | some exp => decide (¬ exp < now)
  | none => true

/-- `get(key)`: missing → null; expired (`now > expiry`) → delete and null;
otherwise the stored value. -/
def MemCache.get (c : MemCache) (now : Nat) (key : String) : Option String × MemCache :=
  match c.store.find? (fun kv => decide (kv.1 = key)) with
  | none => (none, c)
  | some kv =>
    if entryLive now kv.2 then (some kv.2.value, c)
    else (none, ⟨c.store.filter (fun e => decide (¬ e.1 = key))⟩)

/-- Counterexample for C10: at exactly the expiry instant (`now = expiry`,
i.e. "at" the expiry, where the claim demands null) `get` still returns the
value, because the code expires only when `Date.now() > item.expiry`. -/
theorem memCache_boundary_counterexample :
    ((emptyMemCache.set 0 "k" "v" (some 1)).get 1000 "k").1 = some "v" ∧
    (some "v" : Option String) ≠ none := by
  constructor
  · rfl
  · simp

/-- C10 (amended): after `set(k, v, 'EX', t)` at time `t0` (with `t > 0`),
`get(k)` returns `v` when queried at or before the expiry instant
`t0 + t*1000` and null strictly after it; in particular `get` never returns
a value strictly after expiry even if the deletion timer has not fired. -/
theorem memCache_get_ttl (t0 t now : Nat) (k v : String) (ht : 0 < t) :
    ((emptyMemCache.set t0 k v (some t)).get now k).1 =
      if now ≤ t0 + t * 1000 then some v else none := by
  have ht' : ¬ t = 0 := by omega
  have hset : MemCache.set emptyMemCache t0 k v (some t) =
      ⟨[(k, ⟨v, some (t0 + t * 1000)⟩)]⟩ := by
    unfold MemCache.set emptyMemCache
    simp [ht']
  rw [hset]
  unfold MemCache.get
  rw [List.find?_cons_of_pos _ (by simp)]
  by_cases hle : now ≤ t0 + t * 1000
  · rw [if_pos hle]
    have hnl : ¬ t0 + t * 1000 < now := by omega
    simp [entryLive, hnl]
  · rw [if_neg hle]
    have hl : t0 + t * 1000 < now := by omega
    simp [entryLive, hl]

/-- Witness for C10 (amended): a 1-second entry set at time 0 is returned at
1000 ms and gone at 1001 ms. -/
theorem memCache_get_ttl_witness :
    ((emptyMemCache.set 0 "k" "v" (some 1)).get 1001 "k").1 =
      if 1001 ≤ 0 + 1 * 1000 then some "v" else none :=
  memCache_get_ttl 0 1 1001 "k" "v" (by decide)

end Gocomet
